import Mathlib

/-!
Shallow embedding of the OpenElevate backend badge engine
(src/services/badgeService.js) together with the contribution point
calculation (Contribution model post-save hook and the analytics
status-update route), and the data these read and write.

JS dynamic values are modelled explicitly: a possibly-undefined field is
an Option, a comparison with undefined is false, a thrown error is an
Except.error, and a try/catch returning false is a function collapsing
the error case to false.
-/

deriving instance DecidableEq for Except

namespace OpenElevate

/-- Millisecond timestamps, as produced by Date.getTime(). -/
abbrev Millis := Int

/-- A badge record as written by the badge engine into user.badges
(the awardedBadge object literal in checkAndAwardBadges). -/
structure AwardedBadge where
  badgeId : String
  title : String
  description : String
  iconUrl : String
  awardedAt : Millis
  pointsAwarded : Int
deriving Repr, DecidableEq

/-- An element of the stored user.badges array.  The User schema
(src/models/User.js) declares badges as bare ObjectId references, while
the badge engine writes full award records; at run time an element is
one shape or the other. -/
inductive BadgeEntry where
  | objId (id : String)
  | record (r : AwardedBadge)
deriving Repr, DecidableEq

/-- A user skill as read by checkSkillLevel (s.name, s.level). -/
structure Skill where
  name : String
  level : Int
deriving Repr, DecidableEq

/-- A stored user document, with the fields the badge engine reads and
writes.  Fields the engine reads but the User schema does not declare
(mentorRating, activityStreak) are Options: undefined when absent. -/
structure User where
  _id : String
  name : String
  role : String
  skills : List Skill
  badges : List BadgeEntry
  points : Int
  mentorRating : Option Rat
  activityStreak : Option Int
  createdAt : Millis
deriving Repr, DecidableEq

/-- The conditions subdocument of a badge (src/models/Badge.js). -/
structure BadgeConditions where
  type : Option String
  count : Option Int
  skill : Option String
  specialCondition : Option String
deriving Repr, DecidableEq

/-- A badge catalog entry (src/models/Badge.js). -/
structure Badge where
  _id : String
  title : String
  description : String
  iconUrl : String
  conditions : Option BadgeConditions
  pointsAwarded : Int
  isActive : Bool
deriving Repr, DecidableEq

/-- A contribution document (Contribution model).  rating is read by a
special condition but not declared by the schema, hence Option. -/
structure Contribution where
  _id : String
  userId : String
  projectId : Option String
  type : String
  status : String
  rating : Option Int
  points : Int
  verifiedBy : Option String
  verifiedAt : Option Millis
deriving Repr, DecidableEq

/-- A project document, restricted to the fields the engine reads. -/
structure Project where
  _id : String
  createdBy : String
  mainLanguage : Option String
deriving Repr, DecidableEq

/-- A GithubAnalytics document, restricted to the star counts of the
repositories it records for a user. -/
structure GithubAnalytics where
  userId : String
  repoStars : List Int
deriving Repr, DecidableEq

/-- The document store plus the current clock, as the engine sees it. -/
structure DB where
  users : List User
  badges : List Badge
  contributions : List Contribution
  projects : List Project
  github : List GithubAnalytics
  now : Millis
deriving Repr, DecidableEq

/-- JS comparison n >= x where x may be undefined: a comparison with
undefined (NaN after numeric coercion) is false. -/
def jsGe (n : Int) : Option Int → Bool
  | some v => n ≥ v
  | none => false

/-- JS comparison x >= bound where x may be undefined. -/
def jsGeOf (x : Option Int) (bound : Int) : Bool :=
  match x with
  | some v => v ≥ bound
  | none => false

/-- JS comparison x >= bound on a possibly-undefined rational field. -/
def jsGeRat (x : Option Rat) (bound : Rat) : Bool :=
  match x with
  | some v => v ≥ bound
  | none => false

/-- Numeric value of a list of decimal digit characters. -/
def digitsVal (ds : List Char) : Nat :=
  ds.foldl (fun acc c => acc * 10 + (c.toNat - 48)) 0

/-- JS parseInt(s, 10): skip leading whitespace, an optional sign, then
read the leading run of decimal digits; NaN (none) when no digit
follows.  parseInt of undefined is NaN. -/
def jsParseInt (s : Option String) : Option Int :=
  match s with
  | none => none
  | some str =>
    let cs := str.data.dropWhile Char.isWhitespace
    let signed : Int × List Char :=
      match cs with
      | '-' :: rest => (-1, rest)
      | '+' :: rest => (1, rest)
      | _ => (1, cs)
    let ds := signed.2.takeWhile Char.isDigit
    if ds.isEmpty then none
    else some (signed.1 * (digitsVal ds : Int))

/-- JS String.prototype.toLowerCase, on the ASCII range. -/
def lowerCase (s : String) : String :=
  String.mk (s.data.map Char.toLower)

/-- Split a character list on a separator character; always returns at
least one (possibly empty) group. -/
def splitChar (sep : Char) : List Char → List (List Char)
  | [] => [[]]
  | c :: rest =>
    match splitChar sep rest with
    | [] => [[]]
    | g :: gs => if c == sep then [] :: g :: gs else (c :: g) :: gs

/-- JS String.prototype.split with a single-character separator:
"a:b".split(sep) yields every (possibly empty) group between
occurrences of the separator. -/
def jsSplit (s : String) (sep : Char) : List String :=
  (splitChar sep s.data).map String.mk

/-- Model.findById on the user collection. -/
def findUser (db : DB) (userId : String) : Option User :=
  db.users.find? (fun u => u._id == userId)

/-- Model.countDocuments with a filter predicate. -/
def countDocuments {α : Type} (l : List α) (p : α → Bool) : Nat :=
  (l.filter p).length

/-- try { body } catch { return false }: a thrown evaluation error is
logged and converted to false. -/
def catchFalse (body : Except String Bool) : Bool :=
  match body with
  | .ok b => b
  | .error _ => false

/-- BadgeService.checkContributionCount: count of the user's
contributions with status verified, compared with >=. -/
def checkContributionCount (db : DB) (userId : String)
    (requiredCount : Option Int) : Bool :=
  let contributionCount := countDocuments db.contributions
    (fun c => c.userId == userId && c.status == "verified")
  jsGe (contributionCount : Int) requiredCount

/-- BadgeService.checkProjectCount: count of projects created by the
user, compared with >=. -/
def checkProjectCount (db : DB) (userId : String)
    (requiredCount : Option Int) : Bool :=
  let projectCount := countDocuments db.projects
    (fun p => p.createdBy == userId)
  jsGe (projectCount : Int) requiredCount

/-- BadgeService.checkTimeActive: Math.floor of the millisecond
difference divided by one day, compared with >=. -/
def checkTimeActive (db : DB) (userId : String)
    (requiredDays : Option Int) : Bool :=
  match findUser db userId with
  | none => false
  | some user =>
    let diffInTime : Int := db.now - user.createdAt
    let diffInDays : Int := Int.fdiv diffInTime (1000 * 3600 * 24)
    jsGe diffInDays requiredDays

/-- Body of BadgeService.checkSkillLevel.  An error value models a
thrown TypeError (an undefined requiredSkill has no .split). -/
def checkSkillLevelBody (db : DB) (userId : String)
    (requiredSkill : Option String) : Except String Bool :=
  match findUser db userId with
  | none => .ok false
  | some user =>
    match requiredSkill with
    | none => .error "TypeError: requiredSkill.split is not a function"
    | some spec =>
      let parts := jsSplit spec ':'
      let skillName := parts.headD ""
      let levelStr := parts[1]?
      let requiredLevel := jsParseInt levelStr
      if skillName == "" || requiredLevel == none then
        .ok false
      else
        .ok (user.skills.any (fun s =>
          lowerCase s.name == lowerCase skillName && jsGe s.level requiredLevel))

/-- BadgeService.checkSkillLevel, with its try/catch. -/
def checkSkillLevel (db : DB) (userId : String)
    (requiredSkill : Option String) : Bool :=
  catchFalse (checkSkillLevelBody db userId requiredSkill)

/-- Body of BadgeService.checkSpecialCondition: dispatch on the special
condition tag; an unknown or undefined tag falls to the default branch
which logs a warning and returns false. -/
def checkSpecialConditionBody (db : DB) (userId : String)
    (condition : Option String) : Except String Bool :=
  match findUser db userId with
  | none => .ok false
  | some user =>
    if condition == some "become_mentor" then
      .ok (user.role == "mentor")
    else if condition == some "perfect_contribution" then
      let perfect := countDocuments db.contributions
        (fun c => c.userId == userId && c.status == "verified" && c.rating == some 5)
      .ok (decide (0 < perfect))
    else if condition == some "mentor_rating" then
      .ok (user.role == "mentor" && jsGeRat user.mentorRating (9 / 2))
    else if condition == some "github_stars" then
      .ok (db.github.any (fun g =>
        g.userId == userId && g.repoStars.any (fun s => decide (s ≥ 100))))
    else if condition == some "diverse_contributor" then
      let verified := db.contributions.filter
        (fun c => c.userId == userId && c.status == "verified")
      let languages := (verified.filterMap (fun c =>
        c.projectId.bind (fun pid =>
          (db.projects.find? (fun p => p._id == pid)).bind
            (fun p => p.mainLanguage)))).dedup
      .ok (decide (3 ≤ languages.length))
    else if condition == some "streak_achievement" then
      .ok (jsGeOf user.activityStreak 7)
    else
      .ok false

/-- BadgeService.checkSpecialCondition, with its try/catch. -/
def checkSpecialCondition (db : DB) (userId : String)
    (condition : Option String) : Bool :=
  catchFalse (checkSpecialConditionBody db userId condition)

/-- Body of BadgeService.checkBadgeEligibility: destructure
badge.conditions (throws when conditions is missing), dispatch on the
condition type string; an unknown kind logs a warning and returns
false. -/
def checkBadgeEligibilityBody (db : DB) (userId : String)
    (badge : Badge) : Except String Bool :=
  match badge.conditions with
  | none => .error "TypeError: cannot destructure badge.conditions"
  | some conds =>
    if conds.type == some "contribution_count" then
      .ok (checkContributionCount db userId conds.count)
    else if conds.type == some "project_count" then
      .ok (checkProjectCount db userId conds.count)
    else if conds.type == some "time_active" then
      .ok (checkTimeActive db userId conds.count)
    else if conds.type == some "skill_level" then
      .ok (checkSkillLevel db userId conds.skill)
    else if conds.type == some "special" then
      .ok (checkSpecialCondition db userId conds.specialCondition)
    else
      .ok false

/-- BadgeService.checkBadgeEligibility: the surrounding try/catch turns
any thrown error into false. -/
def checkBadgeEligibility (db : DB) (userId : String) (badge : Badge) : Bool :=
  catchFalse (checkBadgeEligibilityBody db userId badge)

/-- One element of user.badges.map(badge => badge.badgeId.toString()):
reading .badgeId of a bare ObjectId element yields undefined, and
undefined.toString() throws a TypeError. -/
def badgeEntryIdString : BadgeEntry → Except String String
  | .objId _ => .error "TypeError: Cannot read properties of undefined"
  | .record r => .ok r.badgeId

/-- user.badges.map(badge => badge.badgeId.toString()), left to right,
propagating the first thrown error. -/
def mapBadgeIds : List BadgeEntry → Except String (List String)
  | [] => .ok []
  | e :: rest =>
    match badgeEntryIdString e with
    | .error msg => .error msg
    | .ok i =>
      match mapBadgeIds rest with
      | .error msg => .error msg
      | .ok is => .ok (i :: is)

/-- The awardedBadge object literal built in the award loop. -/
def mkAwardedBadge (now : Millis) (badge : Badge) : AwardedBadge :=
  { badgeId := badge._id
    title := badge.title
    description := badge.description
    iconUrl := badge.iconUrl
    awardedAt := now
    pointsAwarded := badge.pointsAwarded }

/-- The for-loop of checkAndAwardBadges: for each eligible badge, if the
eligibility check passes, push the award record onto the in-memory user,
add the badge points, and collect the record. -/
def awardLoop (db : DB) (user : User) (newly : List AwardedBadge) :
    List Badge → User × List AwardedBadge
  | [] => (user, newly)
  | badge :: rest =>
    if checkBadgeEligibility db user._id badge then
      let awardedBadge := mkAwardedBadge db.now badge
      awardLoop db
        { user with
          badges := user.badges ++ [BadgeEntry.record awardedBadge]
          points := user.points + badge.pointsAwarded }
        (newly ++ [awardedBadge]) rest
    else
      awardLoop db user newly rest

/-- user.save(): write the in-memory user document back to the store. -/
def saveUser (db : DB) (user : User) : DB :=
  { db with users := db.users.map (fun v => if v._id == user._id then user else v) }

/-- BadgeService.checkAndAwardBadges. -/
def checkAndAwardBadges (db : DB) (userId : String) :
    Except String (List AwardedBadge × DB) :=
  match findUser db userId with
  | none => .error ("User not found with ID: " ++ userId)
  | some user =>
    match mapBadgeIds user.badges with
    | .error msg => .error msg
    | .ok userBadgeIds =>
      let allBadges := db.badges.filter (fun b => b.isActive)
      let eligibleBadges := allBadges.filter
        (fun b => !(userBadgeIds.contains b._id))
      if eligibleBadges.isEmpty then .ok ([], db)
      else
        let result := awardLoop db user [] eligibleBadges
        if result.2.isEmpty then .ok ([], db)
        else .ok (result.2, saveUser db result.1)

/-- BadgeService.processEvent: the switch on eventType has an empty body
in every case (each case only breaks); afterwards it always delegates to
checkAndAwardBadges. -/
def processEvent (db : DB) (userId : String) (eventType : String)
    (eventData : List (String × String)) :
    Except String (List AwardedBadge × DB) :=
  let eventHook : Unit :=
    match eventType with
    | "contribution_verified" => ()
    | "project_created" => ()
    | "skill_updated" => ()
    | _ => ()
  let _ := eventHook
  let _ := eventData
  checkAndAwardBadges db userId

/-- The base point table keyed by contribution type, shared by the
Contribution post-save hook and the analytics status-update route; a
type outside the table leaves points at 0. -/
def contributionBasePoints (ctype : String) : Int :=
  match ctype with
  | "PR" => 10
  | "issue" => 3
  | "review" => 5
  | "documentation" => 7
  | "other" => 2
  | _ => 0

/-- Points of a contribution of the given type at the given status:
base rate, doubled for merged or approved. -/
def contributionPoints (ctype status : String) : Int :=
  let points := contributionBasePoints ctype
  if status == "merged" || status == "approved" then points * 2 else points

/-- ContributionSchema.post(save) hook: recompute the points from the
contribution type and status and store them on the contribution. -/
def applyContributionPointsHook (c : Contribution) : Contribution :=
  { c with points := contributionPoints c.type c.status }

/-- analytics.js contribution status-update handler: set the new status
and verification fields, recompute the points from the contribution type
and the new status, and store them on the contribution. -/
def updateContributionStatus (c : Contribution) (newStatus : String)
    (verifier : String) (now : Millis) : Contribution :=
  let c1 := { c with
    status := newStatus
    verifiedBy := some verifier
    verifiedAt := some now }
  { c1 with points := contributionPoints c1.type newStatus }

/-- pointsAwarded of a stored badge entry: the pointsAwarded field of a
record, undefined (counted as 0 toward a sum) on a bare ObjectId. -/
def entryPoints : BadgeEntry → Int
  | .objId _ => 0
  | .record r => r.pointsAwarded

/-- badgeId of a stored badge entry, undefined on a bare ObjectId. -/
def entryBadgeId : BadgeEntry → Option String
  | .objId _ => none
  | .record r => some r.badgeId

/-- One checkAndAwardBadges call viewed as a state transition: on
success the updated store, on a thrown error the unchanged store. -/
def runCheck (userId : String) (db : DB) : DB :=
  match checkAndAwardBadges db userId with
  | .ok res => res.2
  | .error _ => db

/-- n sequential checkAndAwardBadges calls for the same user. -/
def iterCheck (userId : String) : Nat → DB → DB
  | 0, db => db
  | n + 1, db => iterCheck userId n (runCheck userId db)

/-- Steps 2 and 3 of the engine: the active catalog badges whose id is
not among the user's stored badge ids, in catalog order. -/
def eligibleOf (db : DB) (ids : List String) : List Badge :=
  (db.badges.filter (fun b => b.isActive)).filter
    (fun b => !(ids.contains b._id))

/-- The award batch the engine collects over a list of candidate
badges: one record per badge whose eligibility check passes, in catalog
order. -/
def batchOf (db : DB) (uid : String) (l : List Badge) : List AwardedBadge :=
  (l.filter (checkBadgeEligibility db uid)).map (mkAwardedBadge db.now)

/-! Concrete fixtures used by the witness theorems. -/

/-- A developer with one skill, no badges and no points yet. -/
def aliceW : User :=
  { _id := "u1", name := "Alice", role := "developer",
    skills := [{ name := "go", level := 3 }],
    badges := [], points := 0,
    mentorRating := none, activityStreak := none, createdAt := 0 }

/-- The First Contribution catalog badge. -/
def firstContributionW : Badge :=
  { _id := "b1", title := "First Contribution",
    description := "Made your first contribution",
    iconUrl := "/badges/first-contribution.svg",
    conditions := some { type := some "contribution_count", count := some 1,
                         skill := none, specialCondition := none },
    pointsAwarded := 10, isActive := true }

/-- A badge whose condition type is outside the five known kinds. -/
def unknownKindBadgeW : Badge :=
  { _id := "b2", title := "Mystery",
    description := "Badge with an unknown condition kind",
    iconUrl := "/badges/mystery.svg",
    conditions := some { type := some "mystery_kind", count := some 1,
                         skill := none, specialCondition := none },
    pointsAwarded := 5, isActive := true }

/-- A badge whose conditions subdocument is missing entirely. -/
def noCondBadgeW : Badge :=
  { _id := "b3", title := "Broken",
    description := "Badge with no conditions",
    iconUrl := "/badges/broken.svg",
    conditions := none,
    pointsAwarded := 5, isActive := true }

/-- A verified pull-request contribution by the fixture user. -/
def verifiedPRW : Contribution :=
  { _id := "c1", userId := "u1", projectId := some "p1",
    type := "PR", status := "verified", rating := none, points := 0,
    verifiedBy := none, verifiedAt := none }

/-- A store with one user, three catalog badges and one verified
contribution, one week after the user registered. -/
def dbW : DB :=
  { users := [aliceW],
    badges := [firstContributionW, unknownKindBadgeW, noCondBadgeW],
    contributions := [verifiedPRW],
    projects := [], github := [], now := 604800000 }

/-- A store observed exactly 7*24h - 1s after the user registered. -/
def dbTimeFailW : DB :=
  { users := [aliceW], badges := [], contributions := [],
    projects := [], github := [], now := 604799000 }

/-- A store observed exactly 7*24h after the user registered. -/
def dbTimePassW : DB :=
  { users := [aliceW], badges := [], contributions := [],
    projects := [], github := [], now := 604800000 }

/-- The fixture user with the go skill at level 2 instead of 3. -/
def goLevel2W : User :=
  { aliceW with skills := [{ name := "go", level := 2 }] }

/-- A store holding only the level-3 go user. -/
def dbGo3W : DB :=
  { users := [aliceW], badges := [], contributions := [],
    projects := [], github := [], now := 0 }

/-- A store holding only the level-2 go user. -/
def dbGo2W : DB :=
  { users := [goLevel2W], badges := [], contributions := [],
    projects := [], github := [], now := 0 }

/-- The fixture user as the User schema actually stores badge holders:
the badges array holds a bare ObjectId reference. -/
def schemaUserW : User :=
  { aliceW with badges := [BadgeEntry.objId "b1"] }

/-- The fixture store with the schema-conformant badge holder. -/
def dbSchemaW : DB :=
  { dbW with users := [schemaUserW] }

/-- The batch awarded by checkAndAwardBadges on the fixture store. -/
def recsW : List AwardedBadge :=
  [mkAwardedBadge 604800000 firstContributionW]

/-- The fixture store after that award has been applied. -/
def dbAfterW : DB :=
  runCheck "u1" dbW

/-! Helper lemmas about the engine. -/

/-- Closed form of the award loop: the in-memory user receives one
record per eligible badge that passes its check, the points rise by the
sum of those badges' pointsAwarded, and the collected batch lists the
same records in catalog order. -/
theorem awardLoop_spec (db : DB) (user : User) (acc : List AwardedBadge)
    (l : List Badge) :
    awardLoop db user acc l =
      ({ user with
          badges := user.badges ++
            ((l.filter (checkBadgeEligibility db user._id)).map
              (fun b => BadgeEntry.record (mkAwardedBadge db.now b))),
          points := user.points +
            ((l.filter (checkBadgeEligibility db user._id)).map
              Badge.pointsAwarded).sum },
        acc ++ (l.filter (checkBadgeEligibility db user._id)).map
          (mkAwardedBadge db.now)) := by
  induction l generalizing user acc with
  | nil => simp [awardLoop]
  | cons b rest ih =>
    by_cases h : checkBadgeEligibility db user._id b
    · rw [awardLoop, if_pos h, ih]
      simp [h, List.filter_cons, List.append_assoc, add_assoc]
    · rw [awardLoop, if_neg h, ih]
      simp [h, List.filter_cons]

/-- The user returned by findUser carries the requested id. -/
theorem findUser_id (db : DB) (userId : String) (user : User)
    (h : findUser db userId = some user) : user._id = userId := by
  unfold findUser at h
  have := List.find?_some h
  simpa using this

/-- The user returned by findUser is in the store. -/
theorem findUser_mem (db : DB) (userId : String) (user : User)
    (h : findUser db userId = some user) : user ∈ db.users :=
  List.mem_of_find?_eq_some h

/-- Replacing every user that carries the stored id with the updated
document makes a subsequent lookup return the updated document. -/
theorem find_update (l : List User) (uid : String) (u w : User)
    (hw : w._id = uid)
    (h : l.find? (fun x => x._id == uid) = some u) :
    (l.map (fun v => if v._id == w._id then w else v)).find?
      (fun x => x._id == uid) = some w := by
  induction l with
  | nil => simp at h
  | cons v rest ih =>
    by_cases hv : v._id = uid
    · have hvw : (if v._id == w._id then w else v) = w := by
        rw [hw]
        simp [hv]
      rw [List.map_cons, hvw]
      exact List.find?_cons_of_pos _ (by simp [hw])
    · have hvw : (if v._id == w._id then w else v) = v := by
        rw [hw]
        simp [hv]
      rw [List.map_cons, hvw]
      rw [List.find?_cons_of_neg _ (by simp [hv])] at h ⊢
      exact ih h

/-- user.save() makes a subsequent findUser for the same id return the
saved document. -/
theorem findUser_saveUser (db : DB) (userId : String) (user w : User)
    (hu : findUser db userId = some user) (hw : w._id = userId) :
    findUser (saveUser db w) userId = some w := by
  unfold findUser saveUser at *
  exact find_update db.users userId user w hw hu

/-- Saving a user leaves the contribution collection untouched, so the
contribution-count evaluator is unaffected. -/
theorem checkContributionCount_saveUser (db : DB) (w : User)
    (uid : String) (rc : Option Int) :
    checkContributionCount (saveUser db w) uid rc
      = checkContributionCount db uid rc := rfl

/-- Saving a user leaves the project collection untouched, so the
project-count evaluator is unaffected. -/
theorem checkProjectCount_saveUser (db : DB) (w : User)
    (uid : String) (rc : Option Int) :
    checkProjectCount (saveUser db w) uid rc
      = checkProjectCount db uid rc := rfl

/-- Saving a user with only its badges and points changed does not
change the time-active evaluator for that user. -/
theorem checkTimeActive_saveUser (db : DB) (userId : String) (user : User)
    (B : List BadgeEntry) (P : Int)
    (hu : findUser db userId = some user) (rd : Option Int) :
    checkTimeActive (saveUser db { user with badges := B, points := P })
        userId rd
      = checkTimeActive db userId rd := by
  have hfind := findUser_saveUser db userId user
    { user with badges := B, points := P } hu (findUser_id db userId user hu)
  unfold checkTimeActive
  rw [hfind, hu]
  exact rfl

/-- Saving a user with only its badges and points changed does not
change the skill-level evaluator for that user. -/
theorem checkSkillLevel_saveUser (db : DB) (userId : String) (user : User)
    (B : List BadgeEntry) (P : Int)
    (hu : findUser db userId = some user) (rs : Option String) :
    checkSkillLevel (saveUser db { user with badges := B, points := P })
        userId rs
      = checkSkillLevel db userId rs := by
  have hfind := findUser_saveUser db userId user
    { user with badges := B, points := P } hu (findUser_id db userId user hu)
  unfold checkSkillLevel checkSkillLevelBody
  rw [hfind, hu]

/-- Saving a user with only its badges and points changed does not
change the special-condition evaluator for that user. -/
theorem checkSpecialCondition_saveUser (db : DB) (userId : String)
    (user : User) (B : List BadgeEntry) (P : Int)
    (hu : findUser db userId = some user) (sc : Option String) :
    checkSpecialCondition (saveUser db { user with badges := B, points := P })
        userId sc
      = checkSpecialCondition db userId sc := by
  have hfind := findUser_saveUser db userId user
    { user with badges := B, points := P } hu (findUser_id db userId user hu)
  unfold checkSpecialCondition checkSpecialConditionBody
  rw [hfind, hu]
  exact rfl

/-- Saving a user with only its badges and points changed does not
change any badge's eligibility for that user: eligibility never reads
the badge list or the point total. -/
theorem checkBadgeEligibility_saveUser (db : DB) (userId : String)
    (user : User) (B : List BadgeEntry) (P : Int)
    (hu : findUser db userId = some user) (badge : Badge) :
    checkBadgeEligibility (saveUser db { user with badges := B, points := P })
        userId badge
      = checkBadgeEligibility db userId badge := by
  unfold checkBadgeEligibility checkBadgeEligibilityBody
  rcases hbc : badge.conditions with _ | conds
  · rfl
  · simp only [checkContributionCount_saveUser, checkProjectCount_saveUser,
      checkTimeActive_saveUser db userId user B P hu,
      checkSkillLevel_saveUser db userId user B P hu,
      checkSpecialCondition_saveUser db userId user B P hu]

/-- Mapping badgeId over engine-written records always succeeds and
returns exactly the recorded ids. -/
theorem mapBadgeIds_records (recs : List AwardedBadge) :
    mapBadgeIds (recs.map BadgeEntry.record)
      = Except.ok (recs.map AwardedBadge.badgeId) := by
  induction recs with
  | nil => rfl
  | cons r rest ih => simp [mapBadgeIds, badgeEntryIdString, ih]

/-- Mapping badgeId over an appended badge list splits into the two
halves when both succeed. -/
theorem mapBadgeIds_append (l1 l2 : List BadgeEntry) (ids1 ids2 : List String)
    (h1 : mapBadgeIds l1 = Except.ok ids1)
    (h2 : mapBadgeIds l2 = Except.ok ids2) :
    mapBadgeIds (l1 ++ l2) = Except.ok (ids1 ++ ids2) := by
  induction l1 generalizing ids1 with
  | nil =>
    simp only [mapBadgeIds] at h1
    cases h1
    simpa using h2
  | cons e rest ih =>
    cases e with
    | objId i => simp [mapBadgeIds, badgeEntryIdString] at h1
    | record r =>
      rw [List.cons_append]
      simp only [mapBadgeIds, badgeEntryIdString] at h1 ⊢
      cases hr : mapBadgeIds rest with
      | error msg => rw [hr] at h1; cases h1
      | ok is =>
        rw [hr] at h1
        cases h1
        rw [ih is hr]
        rfl

/-- When mapping badgeId succeeds, the stored badge ids are exactly the
filterMap of the entries' badgeId field. -/
theorem mapBadgeIds_filterMap (l : List BadgeEntry) (ids : List String)
    (h : mapBadgeIds l = Except.ok ids) :
    l.filterMap entryBadgeId = ids := by
  induction l generalizing ids with
  | nil =>
    simp only [mapBadgeIds] at h
    cases h
    rfl
  | cons e rest ih =>
    cases e with
    | objId i => simp [mapBadgeIds, badgeEntryIdString] at h
    | record r =>
      simp only [mapBadgeIds, badgeEntryIdString] at h
      cases hr : mapBadgeIds rest with
      | error msg => rw [hr] at h; cases h
      | ok is =>
        rw [hr] at h
        cases h
        simp [List.filterMap_cons, entryBadgeId, ih is hr]

/-- The batch's recorded pointsAwarded values are the pointsAwarded of
the badges that passed their checks. -/
theorem batch_points (db : DB) (uid : String) (l : List Badge) :
    (batchOf db uid l).map AwardedBadge.pointsAwarded
      = (l.filter (checkBadgeEligibility db uid)).map Badge.pointsAwarded := by
  unfold batchOf
  rw [List.map_map]
  rfl

/-- Full characterization of one checkAndAwardBadges call for a found
user whose stored badge ids read back successfully. -/
theorem checkAndAward_eq (db : DB) (userId : String) (user : User)
    (ids : List String)
    (hu : findUser db userId = some user)
    (hids : mapBadgeIds user.badges = Except.ok ids) :
    checkAndAwardBadges db userId =
      (if (eligibleOf db ids).isEmpty then Except.ok ([], db)
       else if (batchOf db user._id (eligibleOf db ids)).isEmpty then
         Except.ok ([], db)
       else Except.ok (batchOf db user._id (eligibleOf db ids),
         saveUser db
           { user with
               badges := user.badges ++
                 (batchOf db user._id (eligibleOf db ids)).map BadgeEntry.record,
               points := user.points +
                 (((eligibleOf db ids).filter
                     (checkBadgeEligibility db user._id)).map
                   Badge.pointsAwarded).sum })) := by
  unfold checkAndAwardBadges eligibleOf batchOf
  simp only [hu, hids]
  simp only [awardLoop_spec, List.nil_append, List.map_map, Function.comp_def]

/-- The batch's recorded badge ids are the ids of the badges that
passed their checks. -/
theorem batch_ids (db : DB) (uid : String) (l : List Badge) :
    (batchOf db uid l).map AwardedBadge.badgeId
      = (l.filter (checkBadgeEligibility db uid)).map Badge._id := by
  unfold batchOf
  rw [List.map_map]
  rfl

/-- Reading entryBadgeId off engine-written records recovers exactly
the recorded ids. -/
theorem filterMap_entry_records (l : List AwardedBadge) :
    (l.map BadgeEntry.record).filterMap entryBadgeId
      = l.map AwardedBadge.badgeId := by
  induction l with
  | nil => rfl
  | cons r rest ih => simp [List.filterMap_cons, entryBadgeId, ih]

/-- A member of the store after a save is either the saved document or
an untouched earlier member. -/
theorem saveUser_mem_inv (db : DB) (w u : User)
    (h : u ∈ (saveUser db w).users) : u = w ∨ u ∈ db.users := by
  unfold saveUser at h
  obtain ⟨v, hv, hfv⟩ := List.mem_map.mp h
  by_cases hc : (v._id == w._id) = true
  · left
    rw [← hfv, if_pos hc]
  · right
    rw [← hfv, if_neg hc]
    exact hv

/-- Inversion of a successful checkAndAwardBadges call: either nothing
was awarded and the store is unchanged, or the returned batch is the
non-empty batch of passing eligible badges and the store holds exactly
one saved update of the user. -/
theorem checkAndAward_ok_cases (db : DB) (userId : String)
    (recs : List AwardedBadge) (db2 : DB)
    (h : checkAndAwardBadges db userId = Except.ok (recs, db2)) :
    ∃ user ids, findUser db userId = some user ∧
      mapBadgeIds user.badges = Except.ok ids ∧
      ((recs = [] ∧ db2 = db) ∨
       (recs = batchOf db user._id (eligibleOf db ids) ∧ recs ≠ [] ∧
        db2 = saveUser db
          { user with
              badges := user.badges ++ recs.map BadgeEntry.record,
              points := user.points +
                (((eligibleOf db ids).filter
                    (checkBadgeEligibility db user._id)).map
                  Badge.pointsAwarded).sum })) := by
  rcases hu : findUser db userId with _ | user
  · exfalso
    unfold checkAndAwardBadges at h
    rw [hu] at h
    simp at h
  rcases hids : mapBadgeIds user.badges with msg | ids
  · exfalso
    unfold checkAndAwardBadges at h
    simp only [hu] at h
    rw [hids] at h
    simp at h
  refine ⟨user, ids, rfl, hids, ?_⟩
  rw [checkAndAward_eq db userId user ids hu hids] at h
  by_cases he : (eligibleOf db ids).isEmpty
  · rw [if_pos he] at h
    simp only [Except.ok.injEq, Prod.mk.injEq] at h
    exact Or.inl ⟨h.1.symm, h.2.symm⟩
  · rw [if_neg he] at h
    by_cases hb : (batchOf db user._id (eligibleOf db ids)).isEmpty
    · rw [if_pos hb] at h
      simp only [Except.ok.injEq, Prod.mk.injEq] at h
      exact Or.inl ⟨h.1.symm, h.2.symm⟩
    · rw [if_neg hb] at h
      simp only [Except.ok.injEq, Prod.mk.injEq] at h
      obtain ⟨h1, h2⟩ := h
      subst h1
      subst h2
      exact Or.inr ⟨rfl, fun hc => hb (by rw [hc]; rfl), rfl⟩

/-- After an award writes the batch of passing eligible badges onto the
user, every badge still eligible for that user checks false, so the
next call returns the empty batch without writing. -/
theorem second_call_aux (db : DB) (userId : String) (user : User)
    (ids : List String) (recs : List AwardedBadge) (P : Int)
    (hu : findUser db userId = some user)
    (hids : mapBadgeIds user.badges = Except.ok ids)
    (hrecs : recs = batchOf db user._id (eligibleOf db ids)) :
    checkAndAwardBadges
        (saveUser db { user with
          badges := user.badges ++ recs.map BadgeEntry.record, points := P })
        userId
      = Except.ok ([], saveUser db { user with
          badges := user.badges ++ recs.map BadgeEntry.record, points := P }) := by
  have hid : user._id = userId := findUser_id db userId user hu
  have hfind2 : findUser
      (saveUser db { user with
        badges := user.badges ++ recs.map BadgeEntry.record, points := P })
      userId
      = some { user with
          badges := user.badges ++ recs.map BadgeEntry.record, points := P } :=
    findUser_saveUser db userId user _ hu hid
  have hids2 : mapBadgeIds (user.badges ++ recs.map BadgeEntry.record)
      = Except.ok (ids ++ recs.map AwardedBadge.badgeId) :=
    mapBadgeIds_append _ _ _ _ hids (mapBadgeIds_records recs)
  rw [checkAndAward_eq _ userId _ _ hfind2 hids2]
  have hall : ∀ b ∈ eligibleOf db (ids ++ recs.map AwardedBadge.badgeId),
      checkBadgeEligibility db userId b = false := by
    intro b hbmem
    unfold eligibleOf at hbmem
    obtain ⟨hact, hncont⟩ := List.mem_filter.mp hbmem
    have hnotin : b._id ∉ ids ++ recs.map AwardedBadge.badgeId := by
      intro hin
      have hc : (ids ++ recs.map AwardedBadge.badgeId).contains b._id = true :=
        List.elem_iff.mpr hin
      rw [hc] at hncont
      simp at hncont
    have hbid_ids : b._id ∉ ids :=
      fun hx => hnotin (List.mem_append.mpr (Or.inl hx))
    have hbid_recs : b._id ∉ recs.map AwardedBadge.badgeId :=
      fun hx => hnotin (List.mem_append.mpr (Or.inr hx))
    have hbe1 : b ∈ eligibleOf db ids := by
      unfold eligibleOf
      refine List.mem_filter.mpr ⟨hact, ?_⟩
      have hcf : ids.contains b._id = false := by
        cases hX : ids.contains b._id
        · rfl
        · exact absurd (List.elem_iff.mp hX) hbid_ids
      rw [hcf]
      rfl
    cases hX : checkBadgeEligibility db userId b with
    | false => rfl
    | true =>
      exfalso
      have hbf : b ∈ (eligibleOf db ids).filter
          (checkBadgeEligibility db user._id) := by
        refine List.mem_filter.mpr ⟨hbe1, ?_⟩
        rw [hid]
        exact hX
      apply hbid_recs
      rw [hrecs, batch_ids]
      exact List.mem_map.mpr ⟨b, hbf, rfl⟩
  have hbatch2 : batchOf
      (saveUser db { user with
        badges := user.badges ++ recs.map BadgeEntry.record, points := P })
      ({ user with
        badges := user.badges ++ recs.map BadgeEntry.record, points := P } : User)._id
      (eligibleOf
        (saveUser db { user with
          badges := user.badges ++ recs.map BadgeEntry.record, points := P })
        (ids ++ recs.map AwardedBadge.badgeId)) = [] := by
    unfold batchOf
    rw [List.map_eq_nil_iff, List.filter_eq_nil_iff]
    intro b hbmem
    have hb1 : b ∈ eligibleOf db (ids ++ recs.map AwardedBadge.badgeId) := hbmem
    intro htrue
    have hstab := checkBadgeEligibility_saveUser db userId user
      (user.badges ++ recs.map BadgeEntry.record) P hu b
    have htrue2 : checkBadgeEligibility
        (saveUser db { user with
          badges := user.badges ++ recs.map BadgeEntry.record, points := P })
        userId b = true := by
      rw [← hid]
      exact htrue
    rw [hstab, hall b hb1] at htrue2
    cases htrue2
  by_cases he2 : (eligibleOf
      (saveUser db { user with
        badges := user.badges ++ recs.map BadgeEntry.record, points := P })
      (ids ++ recs.map AwardedBadge.badgeId)).isEmpty
  · rw [if_pos he2]
  · rw [if_neg he2, if_pos (by rw [hbatch2]; rfl)]

/-- A second checkAndAwardBadges call immediately after a successful
one, with no intervening state change, awards nothing. -/
theorem second_call_empty (db : DB) (userId : String)
    (recs : List AwardedBadge) (db2 : DB)
    (h : checkAndAwardBadges db userId = Except.ok (recs, db2)) :
    checkAndAwardBadges db2 userId = Except.ok ([], db2) := by
  obtain ⟨user, ids, hu, hids, hcases⟩ :=
    checkAndAward_ok_cases db userId recs db2 h
  rcases hcases with ⟨hrecs, hdb⟩ | ⟨hrecs, hne, hdb⟩
  · subst hrecs
    subst hdb
    exact h
  · subst hdb
    exact second_call_aux db userId user ids recs _ hu hids hrecs

/-- One engine step never touches the badge catalog. -/
theorem runCheck_badges (userId : String) (db : DB) :
    (runCheck userId db).badges = db.badges := by
  unfold runCheck
  cases h : checkAndAwardBadges db userId with
  | error msg => rfl
  | ok res =>
    obtain ⟨user, ids, hu, hids, hcases⟩ :=
      checkAndAward_ok_cases db userId res.1 res.2 (by rw [h])
    rcases hcases with ⟨_, hdb⟩ | ⟨_, _, hdb⟩
    · show res.2.badges = db.badges
      rw [hdb]
    · show res.2.badges = db.badges
      rw [hdb]
      rfl

/-- One engine step preserves distinctness of every user's stored
badge ids, assuming the catalog ids are distinct. -/
theorem runCheck_nodup (userId : String) (db : DB)
    (hcat : (db.badges.map Badge._id).Nodup)
    (hnodup : ∀ u ∈ db.users, (u.badges.filterMap entryBadgeId).Nodup) :
    ∀ u ∈ (runCheck userId db).users,
      (u.badges.filterMap entryBadgeId).Nodup := by
  unfold runCheck
  cases h : checkAndAwardBadges db userId with
  | error msg => exact hnodup
  | ok res =>
    obtain ⟨user, ids, hu, hids, hcases⟩ :=
      checkAndAward_ok_cases db userId res.1 res.2 (by rw [h])
    rcases hcases with ⟨hrecs, hdb⟩ | ⟨hrecs, hne, hdb⟩
    · show ∀ u ∈ res.2.users, (u.badges.filterMap entryBadgeId).Nodup
      rw [hdb]
      exact hnodup
    · show ∀ u ∈ res.2.users, (u.badges.filterMap entryBadgeId).Nodup
      rw [hdb]
      intro u humem
      rcases saveUser_mem_inv db _ u humem with rfl | hmem
      · show ((user.badges ++ res.1.map BadgeEntry.record).filterMap
          entryBadgeId).Nodup
        rw [List.filterMap_append, filterMap_entry_records,
          mapBadgeIds_filterMap user.badges ids hids]
        rw [List.nodup_append]
        refine ⟨?_, ?_, ?_⟩
        · have hus := hnodup user (findUser_mem db userId user hu)
          rw [mapBadgeIds_filterMap user.badges ids hids] at hus
          exact hus
        · rw [hrecs, batch_ids]
          have hsub : ((eligibleOf db ids).filter
              (checkBadgeEligibility db user._id)).Sublist db.badges := by
            unfold eligibleOf
            exact (List.filter_sublist _).trans
              ((List.filter_sublist _).trans (List.filter_sublist _))
          exact List.Nodup.sublist (List.Sublist.map _ hsub) hcat
        · intro x hxids hxbatch
          rw [hrecs, batch_ids] at hxbatch
          obtain ⟨b, hbf, hbid⟩ := List.mem_map.mp hxbatch
          obtain ⟨hbe, _⟩ := List.mem_filter.mp hbf
          unfold eligibleOf at hbe
          obtain ⟨_, hncont⟩ := List.mem_filter.mp hbe
          have hc : ids.contains b._id = true :=
            List.elem_iff.mpr (by rw [hbid]; exact hxids)
          rw [hc] at hncont
          simp at hncont
      · exact hnodup u hmem

/-- Any number of engine steps preserves distinctness of every user's
stored badge ids. -/
theorem iterCheck_nodup (userId : String) (n : Nat) (db : DB)
    (hcat : (db.badges.map Badge._id).Nodup)
    (hnodup : ∀ u ∈ db.users, (u.badges.filterMap entryBadgeId).Nodup) :
    ∀ u ∈ (iterCheck userId n db).users,
      (u.badges.filterMap entryBadgeId).Nodup := by
  induction n generalizing db with
  | zero => exact hnodup
  | succ n ih =>
    exact ih (runCheck userId db)
      (by rw [runCheck_badges]; exact hcat)
      (runCheck_nodup userId db hcat hnodup)

/-- A list whose filterMap image is duplicate-free holds at most one
element mapping to any given value. -/
theorem countP_le_one_of_nodup_filterMap {α β : Type} [BEq β] [LawfulBEq β]
    (f : α → Option β) (l : List α) (h : (l.filterMap f).Nodup) (b : β) :
    l.countP (fun a => f a == some b) ≤ 1 := by
  induction l with
  | nil => simp
  | cons a rest ih =>
    rw [List.countP_cons]
    rcases hfa : f a with _ | v
    · rw [List.filterMap_cons, hfa] at h
      rw [if_neg (by simp [hfa]), add_zero]
      exact ih h
    · rw [List.filterMap_cons, hfa] at h
      obtain ⟨hv, hrest⟩ := List.nodup_cons.mp h
      by_cases hvb : v = b
      · subst hvb
        have hzero : rest.countP (fun a => f a == some v) = 0 := by
          rw [List.countP_eq_zero]
          intro x hx hpx
          exact hv (List.mem_filterMap.mpr ⟨x, hx, by simpa using hpx⟩)
        simp [hzero, hfa]
      · rw [if_neg (by simp [hfa, hvb]), add_zero]
        exact ih hrest

/-! Claim theorems. -/

/-- C1: for a found user whose stored badge ids read back successfully,
checkAndAwardBadges filters the active catalog to the badges not
already held; when that set is empty it returns [] without writing;
otherwise it evaluates each remaining badge in catalog order and, when
the batch of badges whose checks pass is non-empty, applies all of them
as a single save (records appended, points raised by the batch's
pointsAwarded sum) and returns exactly that batch; otherwise it returns
[] without writing. -/
theorem claim_C1_checkAndAward_contract (db : DB) (userId : String)
    (user : User) (ids : List String)
    (hu : findUser db userId = some user)
    (hids : mapBadgeIds user.badges = Except.ok ids) :
    (eligibleOf db ids = [] →
       checkAndAwardBadges db userId = Except.ok ([], db)) ∧
    (batchOf db user._id (eligibleOf db ids) = [] →
       checkAndAwardBadges db userId = Except.ok ([], db)) ∧
    (batchOf db user._id (eligibleOf db ids) ≠ [] →
       checkAndAwardBadges db userId = Except.ok
         (batchOf db user._id (eligibleOf db ids),
          saveUser db
            { user with
                badges := user.badges ++
                  (batchOf db user._id (eligibleOf db ids)).map
                    BadgeEntry.record,
                points := user.points +
                  ((batchOf db user._id (eligibleOf db ids)).map
                    AwardedBadge.pointsAwarded).sum })) := by
  have heq := checkAndAward_eq db userId user ids hu hids
  refine ⟨fun he => ?_, fun hb => ?_, fun hb => ?_⟩
  · rw [heq, if_pos (by simp [he])]
  · rw [heq]
    by_cases he : (eligibleOf db ids).isEmpty
    · rw [if_pos he]
    · rw [if_neg he, if_pos (by simp [hb])]
  · have hbe : (batchOf db user._id (eligibleOf db ids)).isEmpty = false := by
      rcases hX : batchOf db user._id (eligibleOf db ids) with _ | ⟨a, l⟩
      · exact absurd hX hb
      · rfl
    have hee : (eligibleOf db ids).isEmpty = false := by
      rcases hE : eligibleOf db ids with _ | ⟨a, l⟩
      · exact absurd (by simp [batchOf, hE]) hb
      · rfl
    rw [heq, if_neg (by simp [hee]), if_neg (by simp [hbe]), batch_points]

/-- Witness for C1: on the fixture store the batch is non-empty and the
call returns it together with the single saved update. -/
theorem claim_C1_witness :
    batchOf dbW aliceW._id (eligibleOf dbW []) ≠ [] ∧
    checkAndAwardBadges dbW "u1" = Except.ok
      (batchOf dbW aliceW._id (eligibleOf dbW []),
       saveUser dbW
         { aliceW with
             badges := aliceW.badges ++
               (batchOf dbW aliceW._id (eligibleOf dbW [])).map
                 BadgeEntry.record,
             points := aliceW.points +
               ((batchOf dbW aliceW._id (eligibleOf dbW [])).map
                 AwardedBadge.pointsAwarded).sum }) :=
  ⟨by decide,
   (claim_C1_checkAndAward_contract dbW "u1" aliceW [] rfl rfl).2.2 (by decide)⟩

/-- C3: badge evaluation is fail-closed and failure-isolated: a badge
with a missing conditions subdocument (a thrown evaluation error)
checks false, a badge whose condition type is outside the five known
kinds checks false, and the award loop collects exactly one record per
badge whose own check passes, so a false or erroring badge never stops
the remaining badges from being evaluated. -/
theorem claim_C3_fail_closed (db : DB) (userId : String) :
    (∀ badge : Badge, badge.conditions = none →
       checkBadgeEligibility db userId badge = false) ∧
    (∀ (badge : Badge) (conds : BadgeConditions),
       badge.conditions = some conds →
       (∀ t, conds.type = some t →
         t ∉ (["contribution_count", "project_count", "time_active",
               "skill_level", "special"] : List String)) →
       checkBadgeEligibility db userId badge = false) ∧
    (∀ (user : User) (l : List Badge),
       (awardLoop db user [] l).2
         = (l.filter (checkBadgeEligibility db user._id)).map
             (mkAwardedBadge db.now)) := by
  refine ⟨?_, ?_, ?_⟩
  · intro badge hbc
    unfold checkBadgeEligibility checkBadgeEligibilityBody
    rw [hbc]
    rfl
  · intro badge conds hbc ht
    have key : ∀ k : String,
        k ∈ (["contribution_count", "project_count", "time_active",
              "skill_level", "special"] : List String) →
        (conds.type == some k) = false := by
      intro k hk
      rcases h : conds.type with _ | t
      · rfl
      · have hne : t ≠ k := fun hh => ht t h (hh ▸ hk)
        simp [hne]
    unfold checkBadgeEligibility checkBadgeEligibilityBody
    rw [hbc]
    simp [catchFalse, key "contribution_count" (by simp),
      key "project_count" (by simp), key "time_active" (by simp),
      key "skill_level" (by simp), key "special" (by simp)]
  · intro user l
    rw [awardLoop_spec]
    simp

/-- Witness for C3: on the fixture store the conditionless badge and
the unknown-kind badge both check false, while the loop still collects
the passing badge of the same run. -/
theorem claim_C3_witness :
    checkBadgeEligibility dbW "u1" noCondBadgeW = false ∧
    checkBadgeEligibility dbW "u1" unknownKindBadgeW = false ∧
    (awardLoop dbW aliceW [] dbW.badges).2
      = (dbW.badges.filter (checkBadgeEligibility dbW aliceW._id)).map
          (mkAwardedBadge dbW.now) :=
  ⟨(claim_C3_fail_closed dbW "u1").1 noCondBadgeW rfl,
   (claim_C3_fail_closed dbW "u1").2.1 unknownKindBadgeW
     { type := some "mystery_kind", count := some 1,
       skill := none, specialCondition := none } rfl
     (by intro t ht'; cases ht'; decide),
   (claim_C3_fail_closed dbW "u1").2.2 aliceW dbW.badges⟩

/-- C5: the contribution_count evaluator returns true exactly when the
number of the user's contributions whose status is verified reaches the
required count. -/
theorem claim_C5_contribution_count (db : DB) (userId : String)
    (count : Int) :
    checkContributionCount db userId (some count) = true ↔
      count ≤ (countDocuments db.contributions
        (fun c => c.userId == userId && c.status == "verified") : Int) := by
  unfold checkContributionCount jsGe
  simp [ge_iff_le]

/-- C6: the skill_level evaluator splits its spec string on the colon,
returns false when the parsed name is empty or the level part does not
parse as an integer, and otherwise returns true exactly when the user
holds a skill whose name matches case-insensitively with level at least
the required one. -/
theorem claim_C6_skill_level (db : DB) (userId : String) (user : User)
    (spec : String) (hu : findUser db userId = some user) :
    checkSkillLevel db userId (some spec) = true ↔
      ((jsSplit spec ':').headD "" ≠ "" ∧
       ∃ lvl : Int, jsParseInt (jsSplit spec ':')[1]? = some lvl ∧
         ∃ s ∈ user.skills,
           lowerCase s.name = lowerCase ((jsSplit spec ':').headD "") ∧
           lvl ≤ s.level) := by
  unfold checkSkillLevel checkSkillLevelBody
  simp only [hu]
  rcases hparse : jsParseInt (jsSplit spec ':')[1]? with _ | lvl
  · simp [catchFalse, hparse]
  · by_cases hname : (jsSplit spec ':').headD "" = ""
    all_goals rw [List.headD_eq_head?] at hname
    · simp [catchFalse, hparse, hname]
    · simp [catchFalse, hparse, hname, jsGe, List.any_eq_true,
        and_assoc, ge_iff_le]

/-- Witness for C6: skill_level Go:3 is true for the level-3 go user
and false for the level-2 go user. -/
theorem claim_C6_witness :
    checkSkillLevel dbGo3W "u1" (some "Go:3") = true ∧
    checkSkillLevel dbGo2W "u1" (some "Go:3") = false :=
  ⟨(claim_C6_skill_level dbGo3W "u1" aliceW "Go:3" rfl).mpr
     ⟨by decide, 3, by decide,
      ⟨{ name := "go", level := 3 }, by decide, by decide, by decide⟩⟩,
   by decide⟩

/-- C7: the time_active evaluator returns true exactly when the floor
of the elapsed milliseconds divided by one day reaches the required
number of days. -/
theorem claim_C7_time_active (db : DB) (userId : String) (user : User)
    (days : Int) (hu : findUser db userId = some user) :
    checkTimeActive db userId (some days) = true ↔
      days ≤ Int.fdiv (db.now - user.createdAt) 86400000 := by
  unfold checkTimeActive
  rw [hu]
  show jsGe (Int.fdiv (db.now - user.createdAt) (1000 * 3600 * 24)) (some days) = true ↔ _
  norm_num [jsGe, ge_iff_le]

/-- Witness for C7: registration exactly 7 days before now passes
time_active(7); one second short of 7 days fails it. -/
theorem claim_C7_witness :
    checkTimeActive dbTimePassW "u1" (some 7) = true ∧
    checkTimeActive dbTimeFailW "u1" (some 7) = false :=
  ⟨(claim_C7_time_active dbTimePassW "u1" aliceW 7 rfl).mpr (by decide),
   by decide⟩

/-- C8: on a contribution status update as well as in the post-save
hook, the stored points are the fixed base rate of the contribution
type, doubled exactly when the status is merged or approved; the base
rates are PR=10, issue=3, review=5, documentation=7, other=2. -/
theorem claim_C8_contribution_points :
    (∀ (c : Contribution) (s verifier : String) (t : Millis),
       (updateContributionStatus c s verifier t).points
         = contributionBasePoints c.type *
             (if s == "merged" || s == "approved" then 2 else 1) ∧
       (updateContributionStatus c s verifier t).status = s) ∧
    (∀ c : Contribution,
       (applyContributionPointsHook c).points
         = contributionBasePoints c.type *
             (if c.status == "merged" || c.status == "approved"
              then 2 else 1)) ∧
    contributionBasePoints "PR" = 10 ∧
    contributionBasePoints "issue" = 3 ∧
    contributionBasePoints "review" = 5 ∧
    contributionBasePoints "documentation" = 7 ∧
    contributionBasePoints "other" = 2 := by
  refine ⟨?_, ?_, rfl, rfl, rfl, rfl, rfl⟩
  · intro c s verifier t
    refine ⟨?_, rfl⟩
    unfold updateContributionStatus contributionPoints
    by_cases h : (s == "merged" || s == "approved") = true
    · simp [h]
    · simp [h]
  · intro c
    unfold applyContributionPointsHook contributionPoints
    by_cases h : (c.status == "merged" || c.status == "approved") = true
    · simp [h]
    · simp [h]

/-- C9: processEvent performs no event-specific filtering: for every
event type and payload it returns exactly what checkAndAwardBadges
returns on the same state. -/
theorem claim_C9_processEvent_equiv (db : DB) (userId eventType : String)
    (eventData : List (String × String)) :
    processEvent db userId eventType eventData
      = checkAndAwardBadges db userId := rfl

/-- C10: for a stored user whose badges array holds bare ObjectId
references, as the User schema declares, a non-empty badge list makes
checkAndAwardBadges throw (the TypeError from reading .badgeId of an
ObjectId is caught and rethrown), while a user with zero badges
completes the call. -/
theorem claim_C10_schema_badges_throw (db : DB) (userId : String)
    (user : User)
    (hu : findUser db userId = some user)
    (hschema : ∀ e ∈ user.badges, ∃ i, e = BadgeEntry.objId i) :
    (user.badges ≠ [] →
       ∃ msg, checkAndAwardBadges db userId = Except.error msg) ∧
    (user.badges = [] →
       ∃ res, checkAndAwardBadges db userId = Except.ok res) := by
  constructor
  · intro hne
    rcases hb : user.badges with _ | ⟨e, rest⟩
    · exact absurd hb hne
    · obtain ⟨i, hi⟩ := hschema e (by rw [hb]; exact List.mem_cons_self e rest)
      refine ⟨"TypeError: Cannot read properties of undefined", ?_⟩
      unfold checkAndAwardBadges
      simp only [hu]
      rw [hb, hi]
      simp [mapBadgeIds, badgeEntryIdString]
  · intro hb
    unfold checkAndAwardBadges
    simp only [hu]
    rw [hb]
    simp only [mapBadgeIds]
    split_ifs
    · exact ⟨_, rfl⟩
    · exact ⟨_, rfl⟩
    · exact ⟨_, rfl⟩

/-- C2: a successful checkAndAwardBadges call keeps every stored
user's points equal to the sum of pointsAwarded over that user's badge
records, and for the checked user it appends exactly the returned
batch's records while raising the points by exactly the batch's
pointsAwarded sum, in the same single write. -/
theorem claim_C2_points_ledger (db : DB) (userId : String)
    (recs : List AwardedBadge) (db2 : DB)
    (h : checkAndAwardBadges db userId = Except.ok (recs, db2))
    (hinv : ∀ u ∈ db.users, u.points = (u.badges.map entryPoints).sum) :
    (∀ u ∈ db2.users, u.points = (u.badges.map entryPoints).sum) ∧
    (∃ u u2 : User, findUser db userId = some u ∧
       findUser db2 userId = some u2 ∧
       u2.badges = u.badges ++ recs.map BadgeEntry.record ∧
       u2.points = u.points + (recs.map AwardedBadge.pointsAwarded).sum) := by
  obtain ⟨user, ids, hu, hids, hcases⟩ :=
    checkAndAward_ok_cases db userId recs db2 h
  have husr := hinv user (findUser_mem db userId user hu)
  rcases hcases with ⟨hrecs, hdb⟩ | ⟨hrecs, hne, hdb⟩
  · subst hrecs
    subst hdb
    exact ⟨hinv, user, user, hu, hu, by simp, by simp⟩
  · subst hdb
    have hid : user._id = userId := findUser_id db userId user hu
    have hrecmap : (recs.map BadgeEntry.record).map entryPoints
        = recs.map AwardedBadge.pointsAwarded := by
      rw [List.map_map]
      rfl
    constructor
    · intro u humem
      rcases saveUser_mem_inv db _ u humem with rfl | hmem
      · show user.points +
            (((eligibleOf db ids).filter
                (checkBadgeEligibility db user._id)).map
              Badge.pointsAwarded).sum
          = ((user.badges ++ recs.map BadgeEntry.record).map entryPoints).sum
        rw [List.map_append, List.sum_append, hrecmap, husr, hrecs,
          batch_points]
      · exact hinv u hmem
    · refine ⟨user, _, hu, findUser_saveUser db userId user _ hu hid, rfl, ?_⟩
      show user.points +
          (((eligibleOf db ids).filter
              (checkBadgeEligibility db user._id)).map
            Badge.pointsAwarded).sum
        = user.points + (recs.map AwardedBadge.pointsAwarded).sum
      rw [hrecs, batch_points]

/-- Witness for C2 on the fixture store: the invariant holds after the
award and the checked user's points rose by the batch sum. -/
theorem claim_C2_witness :
    (∀ u ∈ dbAfterW.users, u.points = (u.badges.map entryPoints).sum) ∧
    (∃ u u2 : User, findUser dbW "u1" = some u ∧
       findUser dbAfterW "u1" = some u2 ∧
       u2.badges = u.badges ++ recsW.map BadgeEntry.record ∧
       u2.points = u.points + (recsW.map AwardedBadge.pointsAwarded).sum) :=
  claim_C2_points_ledger dbW "u1" recsW dbAfterW (by decide) (by decide)

/-- C4: checkAndAwardBadges is idempotent (an immediately repeated
call on the resulting store returns the empty batch and writes
nothing) and at-most-once per badge (after any number of sequential
calls, every stored user's badge list holds at most one record with
any given badgeId), assuming distinct catalog ids and initially
distinct stored badge ids. -/
theorem claim_C4_idempotent_at_most_once (db : DB) (userId : String)
    (hcat : (db.badges.map Badge._id).Nodup)
    (hnodup : ∀ u ∈ db.users, (u.badges.filterMap entryBadgeId).Nodup) :
    (∀ (recs : List AwardedBadge) (db2 : DB),
       checkAndAwardBadges db userId = Except.ok (recs, db2) →
       checkAndAwardBadges db2 userId = Except.ok ([], db2)) ∧
    (∀ n : Nat, ∀ u ∈ (iterCheck userId n db).users, ∀ bid : String,
       u.badges.countP (fun e => entryBadgeId e == some bid) ≤ 1) := by
  constructor
  · intro recs db2 h
    exact second_call_empty db userId recs db2 h
  · intro n u hu bid
    exact countP_le_one_of_nodup_filterMap entryBadgeId u.badges
      (iterCheck_nodup userId n db hcat hnodup u hu) bid

/-- Witness for C4 at the fixture store. -/
theorem claim_C4_witness :
    (∀ (recs : List AwardedBadge) (db2 : DB),
       checkAndAwardBadges dbW "u1" = Except.ok (recs, db2) →
       checkAndAwardBadges db2 "u1" = Except.ok ([], db2)) ∧
    (∀ n : Nat, ∀ u ∈ (iterCheck "u1" n dbW).users, ∀ bid : String,
       u.badges.countP (fun e => entryBadgeId e == some bid) ≤ 1) :=
  claim_C4_idempotent_at_most_once dbW "u1" (by decide) (by decide)

/-- Witness for C10: the schema-conformant fixture holder throws, the
zero-badge fixture user completes. -/
theorem claim_C10_witness :
    (∃ msg, checkAndAwardBadges dbSchemaW "u1" = Except.error msg) ∧
    (∃ res, checkAndAwardBadges dbW "u1" = Except.ok res) :=
  ⟨(claim_C10_schema_badges_throw dbSchemaW "u1" schemaUserW rfl
      (by intro e he; simp [schemaUserW, aliceW] at he; exact ⟨"b1", he⟩)).1
     (by decide),
   (claim_C10_schema_badges_throw dbW "u1" aliceW rfl
      (by intro e he; simp [aliceW] at he)).2 rfl⟩

end OpenElevate
